import Mathlib

/-!
Verification of the SSE announcements scraper (`src/ann.py`) against its
natural-language specification.  The Python source is shallowly embedded:
pure helpers become Lean functions; the stateful paging / download loops
become functions over an explicit list of environment outcomes, producing
an event trace together with their results.
-/

set_option linter.unusedVariables false

/-! ## Calendar dates (embedding of the `datetime` values used by `ann.py`) -/

/-- A calendar date, as manipulated by `datetime` in `ann.py`. -/
structure Date where
  year : Nat
  month : Nat
  day : Nat
deriving DecidableEq

/-- Chronological order on dates (lexicographic on year, month, day);
this is how `datetime` objects compare in `generate_yearly_date_ranges`. -/
def Date.Le (a b : Date) : Prop :=
  a.year < b.year ∨
    (a.year = b.year ∧ (a.month < b.month ∨ (a.month = b.month ∧ a.day ≤ b.day)))

instance (a b : Date) : Decidable (Date.Le a b) := by
  unfold Date.Le; exact inferInstance

/-- Boolean form of the date comparison, used in executable definitions. -/
def Date.leb (a b : Date) : Bool := decide (Date.Le a b)

/-- Gregorian leap-year rule (as implemented by `datetime`). -/
def isLeapYear (y : Nat) : Bool :=
  (y % 4 == 0 && y % 100 != 0) || (y % 400 == 0)

/-- Number of days of month `m` in year `y` (as implemented by `datetime`). -/
def daysInMonth (y m : Nat) : Nat :=
  match m with
  | 2 => if isLeapYear y then 29 else 28
  | 4 | 6 | 9 | 11 => 30
  | _ => 31

/-- A structurally well-formed calendar date (what `strptime` would accept). -/
def Date.IsValid (d : Date) : Prop :=
  1 ≤ d.month ∧ d.month ≤ 12 ∧ 1 ≤ d.day ∧ d.day ≤ daysInMonth d.year d.month

instance (d : Date) : Decidable (Date.IsValid d) := by
  unfold Date.IsValid; exact inferInstance

/-- `d + timedelta(days=1)`: the next calendar day. -/
def nextDay (d : Date) : Date :=
  if d.day < daysInMonth d.year d.month then ⟨d.year, d.month, d.day + 1⟩
  else if d.month < 12 then ⟨d.year, d.month + 1, 1⟩
  else ⟨d.year + 1, 1, 1⟩

theorem daysInMonth_le_31 (y m : Nat) : daysInMonth y m ≤ 31 := by
  unfold daysInMonth
  split <;> first | omega | (split <;> omega)

theorem daysInMonth_pos (y m : Nat) : 1 ≤ daysInMonth y m := by
  unfold daysInMonth
  split <;> first | omega | (split <;> omega)

theorem nextDay_yearEnd (y : Nat) : nextDay ⟨y, 12, 31⟩ = ⟨y + 1, 1, 1⟩ := by
  simp [nextDay, daysInMonth]

theorem Date.leb_true_iff (a b : Date) : Date.leb a b = true ↔ Date.Le a b := by
  simp [Date.leb]

theorem Date.leb_false_iff (a b : Date) : Date.leb a b = false ↔ ¬ Date.Le a b := by
  simp [Date.leb]

theorem Date.Le.year_le {a b : Date} (h : Date.Le a b) : a.year ≤ b.year := by
  unfold Date.Le at h; omega

theorem Date.Le.trans' {a b c : Date} (h1 : Date.Le a b) (h2 : Date.Le b c) :
    Date.Le a c := by
  unfold Date.Le at *; omega

/-! ## `generate_yearly_date_ranges` (lines 31–52 of `ann.py`)

The Python loop runs while `current_start <= end_date`, emitting
`(current_start, min(Dec-31-of-current-year, end_date))` and restarting at
`Dec-31 + 1 day`.  Each iteration advances `current_start.year` by exactly
one, so the loop is embedded with the year-distance as a structural fuel
argument; `generate_yearly_date_ranges_core` supplies exactly enough fuel. -/

/-- `datetime(current_start.year, 12, 31)` — December 31 of `s`'s year. -/
def yearEndOf (s : Date) : Date := ⟨s.year, 12, 31⟩

/-- `min(year_end, end_date)` — Python `min` on two dates. -/
def rangeEnd (s e : Date) : Date :=
  if Date.leb (yearEndOf s) e then yearEndOf s else e

def core_loop : Nat → Date → Date → List (Date × Date)
  | 0, _, _ => []
  | fuel + 1, s, e =>
    if Date.leb s e then
      (s, rangeEnd s e) :: core_loop fuel (nextDay (yearEndOf s)) e
    else []

/-- The date-level body of `generate_yearly_date_ranges`. -/
def generate_yearly_date_ranges_core (s e : Date) : List (Date × Date) :=
  core_loop (e.year + 1 - s.year) s e

theorem core_loop_measure_zero (fuel : Nat) (s e : Date)
    (h : e.year + 1 - s.year = 0) : core_loop fuel s e = [] := by
  cases fuel with
  | zero => rfl
  | succ n =>
    have hle : Date.leb s e = false := by
      rw [Date.leb_false_iff]
      intro hc
      have := hc.year_le
      omega
    simp [core_loop, hle]

theorem nextDay_yearEndOf (s : Date) : nextDay (yearEndOf s) = ⟨s.year + 1, 1, 1⟩ :=
  nextDay_yearEnd s.year

/-- One-step unfolding of `generate_yearly_date_ranges_core`, mirroring one
iteration of the Python `while` loop. -/
theorem core_unfold (s e : Date) :
    generate_yearly_date_ranges_core s e =
      (if Date.leb s e then
        (s, rangeEnd s e) :: generate_yearly_date_ranges_core (nextDay (yearEndOf s)) e
      else []) := by
  unfold generate_yearly_date_ranges_core
  rcases hm : e.year + 1 - s.year with _ | k
  · have hle : Date.leb s e = false := by
      rw [Date.leb_false_iff]
      intro hc
      have := hc.year_le
      omega
    rw [core_loop_measure_zero 0 s e hm]
    simp [hle]
  · by_cases hle : Date.leb s e = true
    · have hy : s.year ≤ e.year := (Date.leb_true_iff s e |>.mp hle).year_le
      simp only [core_loop, hle, if_true, nextDay_yearEndOf]
      have hfix : e.year + 1 - (s.year + 1) = k := by omega
      rw [hfix]
    · simp only [Bool.not_eq_true] at hle
      simp [core_loop, hle]

theorem core_loop_nil_of_not_le (fuel : Nat) (s e : Date) (h : ¬ Date.Le s e) :
    core_loop fuel s e = [] := by
  have hle : Date.leb s e = false := (Date.leb_false_iff s e).mpr h
  cases fuel with
  | zero => rfl
  | succ n => simp [core_loop, hle]

theorem core_loop_le_of_ne_nil {fuel : Nat} {s e : Date}
    (h : core_loop fuel s e ≠ []) : Date.Le s e := by
  by_contra hc
  exact h (core_loop_nil_of_not_le fuel s e hc)

theorem core_loop_head (fuel : Nat) (s e : Date)
    (hf : e.year + 1 - s.year ≤ fuel) (hse : Date.Le s e) :
    (core_loop fuel s e).head? = some (s, rangeEnd s e) := by
  have hy : s.year ≤ e.year := hse.year_le
  cases fuel with
  | zero => omega
  | succ n =>
    have hle : Date.leb s e = true := (Date.leb_true_iff s e).mpr hse
    simp [core_loop, hle]

theorem core_loop_year_eq (e : Date) :
    ∀ (fuel : Nat) (s : Date), e.year + 1 - s.year ≤ fuel →
      ∀ r ∈ core_loop fuel s e, r.1.year = r.2.year := by
  intro fuel
  induction fuel with
  | zero => intro s hf r hr; simp [core_loop] at hr
  | succ n ih =>
    intro s hf r hr
    by_cases hle : Date.leb s e = true
    · rw [core_loop, if_pos hle] at hr
      have hse : Date.Le s e := (Date.leb_true_iff s e).mp hle
      rcases List.mem_cons.mp hr with hr | hr
      · subst hr
        simp only [rangeEnd]
        by_cases hYE : Date.leb (yearEndOf s) e = true
        · rw [if_pos hYE]
          simp [yearEndOf]
        · rw [if_neg hYE]
          simp only [Bool.not_eq_true] at hYE
          have hnot : ¬ Date.Le (yearEndOf s) e := (Date.leb_false_iff _ _).mp hYE
          show s.year = e.year
          unfold Date.Le at hnot hse
          unfold yearEndOf at hnot
          simp only at hnot
          omega
      · rw [nextDay_yearEndOf] at hr
        have hy : s.year ≤ e.year := hse.year_le
        exact ih ⟨s.year + 1, 1, 1⟩ (by show e.year + 1 - (s.year + 1) ≤ n; omega) r hr
    · rw [core_loop, if_neg hle] at hr
      simp at hr

theorem daysInMonth_twelve (y : Nat) : daysInMonth y 12 = 31 := rfl

theorem core_loop_start_le (e : Date) :
    ∀ (fuel : Nat) (s : Date), e.year + 1 - s.year ≤ fuel → Date.IsValid s →
      ∀ r ∈ core_loop fuel s e, Date.Le r.1 r.2 := by
  intro fuel
  induction fuel with
  | zero => intro s hf hs r hr; simp [core_loop] at hr
  | succ n ih =>
    intro s hf hs r hr
    by_cases hle : Date.leb s e = true
    · rw [core_loop, if_pos hle] at hr
      have hse : Date.Le s e := (Date.leb_true_iff s e).mp hle
      rcases List.mem_cons.mp hr with hr | hr
      · subst hr
        show Date.Le s (rangeEnd s e)
        simp only [rangeEnd]
        by_cases hYE : Date.leb (yearEndOf s) e = true
        · rw [if_pos hYE]
          have h31 : s.day ≤ 31 := le_trans hs.2.2.2 (daysInMonth_le_31 _ _)
          have hm12 : s.month ≤ 12 := hs.2.1
          refine Or.inr ⟨rfl, ?_⟩
          show s.month < 12 ∨ (s.month = 12 ∧ s.day ≤ 31)
          omega
        · rw [if_neg hYE]
          exact hse
      · rw [nextDay_yearEndOf] at hr
        have hy : s.year ≤ e.year := hse.year_le
        have hvalid : Date.IsValid ⟨s.year + 1, 1, 1⟩ :=
          ⟨Nat.le_refl 1, by show (1 : Nat) ≤ 12; omega, Nat.le_refl 1,
            daysInMonth_pos _ _⟩
        exact ih ⟨s.year + 1, 1, 1⟩ (by show e.year + 1 - (s.year + 1) ≤ n; omega) hvalid r hr
    · rw [core_loop, if_neg hle] at hr
      simp at hr

theorem core_loop_year_index (e : Date) :
    ∀ (fuel : Nat) (s : Date), e.year + 1 - s.year ≤ fuel →
      ∀ (i : Nat) (hi : i < (core_loop fuel s e).length),
        ((core_loop fuel s e).get ⟨i, hi⟩).1.year = s.year + i := by
  intro fuel
  induction fuel with
  | zero => intro s hf i hi; simp [core_loop] at hi
  | succ n ih =>
    intro s hf i hi
    by_cases hle : Date.leb s e = true
    · have hse : Date.Le s e := (Date.leb_true_iff s e).mp hle
      have hy : s.year ≤ e.year := hse.year_le
      simp only [List.get_eq_getElem, core_loop, hle, if_true, nextDay_yearEndOf] at hi ⊢
      cases i with
      | zero => simp
      | succ m =>
        simp only [List.length_cons] at hi
        have hm : m < (core_loop n ⟨s.year + 1, 1, 1⟩ e).length := Nat.lt_of_succ_lt_succ hi
        have hrec := ih ⟨s.year + 1, 1, 1⟩ (by show e.year + 1 - (s.year + 1) ≤ n; omega) m hm
        simp only [List.get_eq_getElem] at hrec
        simp only [List.getElem_cons_succ]
        exact hrec.trans (by show s.year + 1 + m = s.year + (m + 1); omega)
    · simp only [core_loop, hle, if_false, Bool.false_eq_true, List.length_nil] at hi
      omega

theorem core_loop_chain (e : Date) :
    ∀ (fuel : Nat) (s : Date), e.year + 1 - s.year ≤ fuel →
      List.Chain' (fun r1 r2 => r2.1 = nextDay r1.2) (core_loop fuel s e) := by
  intro fuel
  induction fuel with
  | zero => intro s hf; exact List.chain'_nil
  | succ n ih =>
    intro s hf
    by_cases hle : Date.leb s e = true
    · have hse : Date.Le s e := (Date.leb_true_iff s e).mp hle
      have hy : s.year ≤ e.year := hse.year_le
      rw [core_loop, if_pos hle, nextDay_yearEndOf]
      refine List.chain'_cons'.mpr ⟨?_, ?_⟩
      · intro b hb
        by_cases hr : core_loop n ⟨s.year + 1, 1, 1⟩ e = []
        · rw [hr] at hb
          simp at hb
        · have hle2 : Date.Le ⟨s.year + 1, 1, 1⟩ e := core_loop_le_of_ne_nil hr
          have hy2 : s.year + 1 ≤ e.year := hle2.year_le
          have hhead := core_loop_head n ⟨s.year + 1, 1, 1⟩ e
            (by show e.year + 1 - (s.year + 1) ≤ n; omega) hle2
          rw [hhead] at hb
          simp only [Option.mem_def, Option.some_inj] at hb
          subst hb
          show (⟨s.year + 1, 1, 1⟩ : Date) = nextDay (rangeEnd s e)
          have hYE : Date.leb (yearEndOf s) e = true := by
            rw [Date.leb_true_iff]
            exact Or.inl (by show s.year < e.year; omega)
          rw [rangeEnd, if_pos hYE, nextDay_yearEndOf]
      · exact ih ⟨s.year + 1, 1, 1⟩ (by show e.year + 1 - (s.year + 1) ≤ n; omega)
    · rw [core_loop, if_neg hle]
      exact List.chain'_nil

theorem Date.le_yearEnd {d : Date} (hd : Date.IsValid d) {y : Nat} (h : d.year ≤ y) :
    Date.Le d ⟨y, 12, 31⟩ := by
  have hd31 : d.day ≤ 31 := le_trans hd.2.2.2 (daysInMonth_le_31 _ _)
  have hdm : d.month ≤ 12 := hd.2.1
  rcases Nat.lt_or_ge d.year y with h' | h'
  · exact Or.inl h'
  · have hy : d.year = y := by omega
    refine Or.inr ⟨hy, ?_⟩
    show d.month < 12 ∨ (d.month = 12 ∧ d.day ≤ 31)
    omega

theorem Date.jan1_le {d : Date} (hd : Date.IsValid d) {y : Nat} (h : y ≤ d.year) :
    Date.Le ⟨y, 1, 1⟩ d := by
  have hm : 1 ≤ d.month := hd.1
  have hdd : 1 ≤ d.day := hd.2.2.1
  rcases Nat.lt_or_ge y d.year with h' | h'
  · exact Or.inl h'
  · have hy : y = d.year := by omega
    refine Or.inr ⟨hy, ?_⟩
    show 1 < d.month ∨ (1 = d.month ∧ 1 ≤ d.day)
    omega

theorem Date.year_le_of_not_jan1_le {e : Date} (he : Date.IsValid e) {y : Nat}
    (h : ¬ Date.Le ⟨y + 1, 1, 1⟩ e) : e.year ≤ y := by
  by_contra hc
  exact h (Date.jan1_le he (by omega))

theorem Date.split_at_yearEnd {d : Date} (hd : Date.IsValid d) (y : Nat) :
    Date.Le d ⟨y, 12, 31⟩ ∨ Date.Le ⟨y + 1, 1, 1⟩ d := by
  rcases Nat.lt_or_ge y d.year with h | h
  · exact Or.inr (Date.jan1_le hd (by omega))
  · exact Or.inl (Date.le_yearEnd hd h)

theorem Date.le_next_jan1 (s : Date) : Date.Le s ⟨s.year + 1, 1, 1⟩ :=
  Or.inl (Nat.lt_succ_self s.year)

theorem Date.eq_yearEnd_of_between {e : Date} (he : Date.IsValid e) {y : Nat}
    (h1 : Date.Le ⟨y, 12, 31⟩ e) (h2 : e.year ≤ y) : e = ⟨y, 12, 31⟩ := by
  obtain ⟨ey, em, ed⟩ := e
  have hm : em ≤ 12 := he.2.1
  have hdd : ed ≤ daysInMonth ey em := he.2.2.2
  have h2' : ey ≤ y := h2
  have h1' : y < ey ∨ (y = ey ∧ (12 < em ∨ (12 = em ∧ 31 ≤ ed))) := h1
  have hey : ey = y := by omega
  subst hey
  have hem : em = 12 := by omega
  subst hem
  rw [daysInMonth_twelve] at hdd
  have hed : ed = 31 := by omega
  subst hed
  rfl

theorem core_loop_last (e : Date) (he : Date.IsValid e) :
    ∀ (fuel : Nat) (s : Date), e.year + 1 - s.year ≤ fuel → Date.Le s e →
      (core_loop fuel s e).getLast?.map Prod.snd = some e := by
  intro fuel
  induction fuel with
  | zero => intro s hf hse; have := hse.year_le; omega
  | succ n ih =>
    intro s hf hse
    have hy : s.year ≤ e.year := hse.year_le
    have hle : Date.leb s e = true := (Date.leb_true_iff s e).mpr hse
    rw [core_loop, if_pos hle, nextDay_yearEndOf]
    by_cases hrest : core_loop n ⟨s.year + 1, 1, 1⟩ e = []
    · rw [hrest]
      have hnotle : ¬ Date.Le ⟨s.year + 1, 1, 1⟩ e := by
        intro hc
        have hhead := core_loop_head n ⟨s.year + 1, 1, 1⟩ e
          (by show e.year + 1 - (s.year + 1) ≤ n; omega) hc
        rw [hrest] at hhead
        simp at hhead
      have heys : e.year ≤ s.year := Date.year_le_of_not_jan1_le he hnotle
      have hce : rangeEnd s e = e := by
        rw [rangeEnd]
        by_cases hYE : Date.leb (yearEndOf s) e = true
        · have hLe : Date.Le ⟨s.year, 12, 31⟩ e := (Date.leb_true_iff _ _).mp hYE
          have heq : e = ⟨s.year, 12, 31⟩ := Date.eq_yearEnd_of_between he hLe heys
          rw [if_pos hYE]
          exact heq.symm
        · rw [if_neg hYE]
      simp [hce]
    · obtain ⟨b, L, hbl⟩ := List.exists_cons_of_ne_nil hrest
      have hle2 : Date.Le ⟨s.year + 1, 1, 1⟩ e := core_loop_le_of_ne_nil hrest
      rw [hbl, List.getLast?_cons_cons, ← hbl]
      exact ih ⟨s.year + 1, 1, 1⟩ (by show e.year + 1 - (s.year + 1) ≤ n; omega) hle2

theorem core_loop_union (e : Date) (he : Date.IsValid e) :
    ∀ (fuel : Nat) (s : Date), e.year + 1 - s.year ≤ fuel → Date.Le s e →
      ∀ d : Date, Date.IsValid d →
        ((Date.Le s d ∧ Date.Le d e) ↔
          ∃ r ∈ core_loop fuel s e, Date.Le r.1 d ∧ Date.Le d r.2) := by
  intro fuel
  induction fuel with
  | zero => intro s hf hse d hd; have := hse.year_le; omega
  | succ n ih =>
    intro s hf hse d hd
    have hy : s.year ≤ e.year := hse.year_le
    have hle : Date.leb s e = true := (Date.leb_true_iff s e).mpr hse
    rw [core_loop, if_pos hle, nextDay_yearEndOf]
    by_cases hnext : Date.Le ⟨s.year + 1, 1, 1⟩ e
    · have hy2 : s.year + 1 ≤ e.year := hnext.year_le
      have hYE : Date.leb (yearEndOf s) e = true := by
        rw [Date.leb_true_iff]
        exact Or.inl (by show s.year < e.year; omega)
      have hYEle : Date.Le (yearEndOf s) e := (Date.leb_true_iff _ _).mp hYE
      have hcEq : rangeEnd s e = yearEndOf s := by rw [rangeEnd, if_pos hYE]
      have hIH := ih ⟨s.year + 1, 1, 1⟩
        (by show e.year + 1 - (s.year + 1) ≤ n; omega) hnext d hd
      constructor
      · rintro ⟨h1, h2⟩
        rcases Date.split_at_yearEnd hd s.year with hsplit | hsplit
        · refine ⟨(s, rangeEnd s e), List.mem_cons_self _ _, h1, ?_⟩
          rw [hcEq]
          exact hsplit
        · obtain ⟨r, hr, hr1, hr2⟩ := hIH.mp ⟨hsplit, h2⟩
          exact ⟨r, List.mem_cons_of_mem _ hr, hr1, hr2⟩
      · rintro ⟨r, hr, hr1, hr2⟩
        rcases List.mem_cons.mp hr with rfl | hr
        · refine ⟨hr1, ?_⟩
          rw [hcEq] at hr2
          exact hr2.trans' hYEle
        · have hmem := hIH.mpr ⟨r, hr, hr1, hr2⟩
          exact ⟨(Date.le_next_jan1 s).trans' hmem.1, hmem.2⟩
    · have hrest : core_loop n ⟨s.year + 1, 1, 1⟩ e = [] :=
        core_loop_nil_of_not_le n _ e hnext
      have heys : e.year ≤ s.year := Date.year_le_of_not_jan1_le he hnext
      have hce : rangeEnd s e = e := by
        rw [rangeEnd]
        by_cases hYE : Date.leb (yearEndOf s) e = true
        · have hLe : Date.Le ⟨s.year, 12, 31⟩ e := (Date.leb_true_iff _ _).mp hYE
          have heq : e = ⟨s.year, 12, 31⟩ := Date.eq_yearEnd_of_between he hLe heys
          rw [if_pos hYE]
          exact heq.symm
        · rw [if_neg hYE]
      rw [hrest, hce]
      constructor
      · rintro ⟨h1, h2⟩
        exact ⟨(s, e), List.mem_cons_self _ _, h1, h2⟩
      · rintro ⟨r, hr, hr1, hr2⟩
        have hr' : r = (s, e) := List.mem_singleton.mp hr
        subst hr'
        exact ⟨hr1, hr2⟩

/-! ## String layer: `strptime("%Y-%m-%d")` / `strftime("%Y-%m-%d")` -/

/-- Split a character list on a separator (the field structure that
`strptime("%Y-%m-%d")` requires). -/
def splitOnChar (sep : Char) : List Char → List (List Char)
  | [] => [[]]
  | c :: cs =>
    match splitOnChar sep cs with
    | [] => [[]]
    | g :: gs => if c = sep then [] :: g :: gs else (c :: g) :: gs

/-- Read a non-empty all-digit field as a number (one `%Y`/`%m`/`%d` field). -/
def digitField (cs : List Char) : Option Nat :=
  if cs ≠ [] ∧ cs.all Char.isDigit then
    some (cs.foldl (fun n c => n * 10 + (c.toNat - 48)) 0)
  else none

/-- `datetime.strptime(s, "%Y-%m-%d")`: three dash-separated numeric fields,
with the month/day range checks `strptime` performs; `none` models the
`ValueError` it raises otherwise. -/
def strptimeYmd (s : String) : Option Date :=
  match splitOnChar '-' s.data with
  | [ys, ms, ds] =>
    match digitField ys, digitField ms, digitField ds with
    | some y, some m, some d =>
      if 1 ≤ m ∧ m ≤ 12 ∧ 1 ≤ d ∧ d ≤ daysInMonth y m then some ⟨y, m, d⟩
      else none
    | _, _, _ => none
  | _ => none

/-- Zero-pad a numeral to a given width, as `strftime` does. -/
def padZero (w n : Nat) : String :=
  String.mk (List.replicate (w - (Nat.repr n).length) '0') ++ Nat.repr n

/-- `d.strftime("%Y-%m-%d")`. -/
def strftimeYmd (d : Date) : String :=
  padZero 4 d.year ++ "-" ++ padZero 2 d.month ++ "-" ++ padZero 2 d.day

/-- `generate_yearly_date_ranges(start_date_str, end_date_str)` from `ann.py`:
parse both dates, run the year-splitting loop, format the boundaries back to
strings.  A `none` result models the `ValueError` that `strptime` raises on a
malformed date string — the only failure the function can produce. -/
def generate_yearly_date_ranges (start_date_str end_date_str : String) :
    Option (List (String × String)) :=
  match strptimeYmd start_date_str, strptimeYmd end_date_str with
  | some s, some e =>
    some ((generate_yearly_date_ranges_core s e).map
      (fun r => (strftimeYmd r.1, strftimeYmd r.2)))
  | _, _ => none

/-- C2: for every pair of valid dates with start ≤ end,
`generate_yearly_date_ranges` returns a non-empty ordered sequence of ranges
that are contiguous (each range starts the day after the previous ends),
non-overlapping (strictly increasing years), each fully contained in a single
calendar year, whose union is exactly the inclusive interval [start, end];
in particular split("2022-06-15", "2024-02-10") gives the three ranges
("2022-06-15","2022-12-31"), ("2023-01-01","2023-12-31"),
("2024-01-01","2024-02-10"). -/
theorem claim_C2 (s e : Date) (hs : Date.IsValid s) (he : Date.IsValid e)
    (hse : Date.Le s e) :
    (generate_yearly_date_ranges_core s e ≠ [] ∧
     (generate_yearly_date_ranges_core s e).head?.map Prod.fst = some s ∧
     (generate_yearly_date_ranges_core s e).getLast?.map Prod.snd = some e ∧
     (∀ r ∈ generate_yearly_date_ranges_core s e,
        Date.Le r.1 r.2 ∧ r.1.year = r.2.year) ∧
     List.Chain' (fun r1 r2 => r2.1 = nextDay r1.2)
       (generate_yearly_date_ranges_core s e) ∧
     (∀ (i j : Nat) (hi : i < (generate_yearly_date_ranges_core s e).length)
        (hj : j < (generate_yearly_date_ranges_core s e).length), i < j →
        ((generate_yearly_date_ranges_core s e).get ⟨i, hi⟩).2.year <
          ((generate_yearly_date_ranges_core s e).get ⟨j, hj⟩).1.year) ∧
     (∀ d : Date, Date.IsValid d →
        ((Date.Le s d ∧ Date.Le d e) ↔
          ∃ r ∈ generate_yearly_date_ranges_core s e,
            Date.Le r.1 d ∧ Date.Le d r.2))) ∧
    generate_yearly_date_ranges "2022-06-15" "2024-02-10" =
      some [("2022-06-15", "2022-12-31"), ("2023-01-01", "2023-12-31"),
        ("2024-01-01", "2024-02-10")] := by
  unfold generate_yearly_date_ranges_core
  refine ⟨⟨?_, ?_, ?_, ?_, ?_, ?_, ?_⟩, by decide⟩
  · intro hnil
    have hh := core_loop_head (e.year + 1 - s.year) s e (le_refl _) hse
    rw [hnil] at hh
    simp at hh
  · rw [core_loop_head (e.year + 1 - s.year) s e (le_refl _) hse]
    rfl
  · exact core_loop_last e he _ s (le_refl _) hse
  · intro r hr
    exact ⟨core_loop_start_le e _ s (le_refl _) hs r hr,
      core_loop_year_eq e _ s (le_refl _) r hr⟩
  · exact core_loop_chain e _ s (le_refl _)
  · intro i j hi hj hij
    have h1 := core_loop_year_index e _ s (le_refl _) i hi
    have h2 := core_loop_year_index e _ s (le_refl _) j hj
    have hmem := List.get_mem (core_loop (e.year + 1 - s.year) s e) i hi
    have hye := core_loop_year_eq e _ s (le_refl _) _ hmem
    omega
  · intro d hd
    exact core_loop_union e he _ s (le_refl _) hse d hd

/-- Witness for C2 at the spec's own example, start = 2022-06-15 and
end = 2024-02-10. -/
theorem claim_C2_witness :
    Date.IsValid ⟨2022, 6, 15⟩ ∧ Date.IsValid ⟨2024, 2, 10⟩ ∧
    Date.Le ⟨2022, 6, 15⟩ ⟨2024, 2, 10⟩ ∧
    ((generate_yearly_date_ranges_core ⟨2022, 6, 15⟩ ⟨2024, 2, 10⟩ ≠ [] ∧
      (generate_yearly_date_ranges_core ⟨2022, 6, 15⟩ ⟨2024, 2, 10⟩).head?.map
        Prod.fst = some ⟨2022, 6, 15⟩ ∧
      (generate_yearly_date_ranges_core ⟨2022, 6, 15⟩ ⟨2024, 2, 10⟩).getLast?.map
        Prod.snd = some ⟨2024, 2, 10⟩ ∧
      (∀ r ∈ generate_yearly_date_ranges_core ⟨2022, 6, 15⟩ ⟨2024, 2, 10⟩,
        Date.Le r.1 r.2 ∧ r.1.year = r.2.year) ∧
      List.Chain' (fun r1 r2 => r2.1 = nextDay r1.2)
        (generate_yearly_date_ranges_core ⟨2022, 6, 15⟩ ⟨2024, 2, 10⟩) ∧
      (∀ (i j : Nat)
        (hi : i < (generate_yearly_date_ranges_core ⟨2022, 6, 15⟩ ⟨2024, 2, 10⟩).length)
        (hj : j < (generate_yearly_date_ranges_core ⟨2022, 6, 15⟩ ⟨2024, 2, 10⟩).length),
        i < j →
        ((generate_yearly_date_ranges_core ⟨2022, 6, 15⟩ ⟨2024, 2, 10⟩).get
          ⟨i, hi⟩).2.year <
          ((generate_yearly_date_ranges_core ⟨2022, 6, 15⟩ ⟨2024, 2, 10⟩).get
            ⟨j, hj⟩).1.year) ∧
      (∀ d : Date, Date.IsValid d →
        ((Date.Le ⟨2022, 6, 15⟩ d ∧ Date.Le d ⟨2024, 2, 10⟩) ↔
          ∃ r ∈ generate_yearly_date_ranges_core ⟨2022, 6, 15⟩ ⟨2024, 2, 10⟩,
            Date.Le r.1 d ∧ Date.Le d r.2))) ∧
     generate_yearly_date_ranges "2022-06-15" "2024-02-10" =
       some [("2022-06-15", "2022-12-31"), ("2023-01-01", "2023-12-31"),
         ("2024-01-01", "2024-02-10")]) :=
  ⟨by decide, by decide, by decide,
    claim_C2 ⟨2022, 6, 15⟩ ⟨2024, 2, 10⟩ (by decide) (by decide) (by decide)⟩

/-- C3 counterexample: with start "2024-01-01" strictly after end
"2023-01-01" the splitter returns normally with `some []` — no error of any
kind (no `InvalidRangeError` exists anywhere in `ann.py`; the only failure
`generate_yearly_date_ranges` can produce is the `strptime` parse error,
modelled as `none`). -/
theorem claim_C3_counterexample :
    generate_yearly_date_ranges "2024-01-01" "2023-01-01" = some [] := by decide

/-- C3 (amended): for every pair of dates with start > end, the date-range
splitter does not fail — it returns normally with an empty list of ranges. -/
theorem claim_C3 (s e : Date) (h1 : Date.Le e s) (h2 : e ≠ s) :
    generate_yearly_date_ranges_core s e = [] := by
  unfold generate_yearly_date_ranges_core
  apply core_loop_nil_of_not_le
  intro hc
  apply h2
  obtain ⟨sy, sm, sd⟩ := s
  obtain ⟨ey, em, ed⟩ := e
  have h1' : ey < sy ∨ (ey = sy ∧ (em < sm ∨ (em = sm ∧ ed ≤ sd))) := h1
  have hc' : sy < ey ∨ (sy = ey ∧ (sm < em ∨ (sm = em ∧ sd ≤ ed))) := hc
  simp only [Date.mk.injEq]
  omega

/-- Witness for C3 (amended) at start = 2024-01-01 > end = 2023-01-01. -/
theorem claim_C3_witness :
    Date.Le ⟨2023, 1, 1⟩ ⟨2024, 1, 1⟩ ∧ (⟨2023, 1, 1⟩ : Date) ≠ ⟨2024, 1, 1⟩ ∧
    generate_yearly_date_ranges_core ⟨2024, 1, 1⟩ ⟨2023, 1, 1⟩ = [] :=
  ⟨by decide, by decide,
    claim_C3 ⟨2024, 1, 1⟩ ⟨2023, 1, 1⟩ (by decide) (by decide)⟩

/-! ## `fetch_all_announcements_paginated` (lines 54–113 of `ann.py`)

The loop is embedded as a function over the list of successive API responses
(one entry consumed per iteration of the `while True` loop), producing the
trace of issued requests / sleeps together with the accumulated
announcements.  The `while` loop in the source never exhausts its response
stream (it only leaves via `break`); the `[]` base case below is reached only
when a theorem quantifies over a finite prefix of responses. -/

/-- One item of the nested `pageHelp.data` payload: its `TITLE` and `URL`
JSON fields (absent field ↦ `none`, as `item.get` returns `None`). -/
structure Item where
  TITLE : Option String
  URL : Option String
deriving DecidableEq

/-- The `{"title": ..., "url": ...}` record built on line 102. -/
structure Announcement where
  title : String
  url : String
deriving DecidableEq

/-- Python truthiness of an optional string (`if title and url_path`):
`None` and the empty string are falsy. -/
def truthy : Option String → Bool
  | none => false
  | some s => !(s == "")

/-- One step of the inner item loop (lines 97–102).  Note the state's second
component: the source rebinds the function-level `title` variable to
`item.get("TITLE")` for every item. -/
def processItem (st : List Announcement × Option String) (item : Item) :
    List Announcement × Option String :=
  if truthy item.TITLE && truthy item.URL then
    (st.1 ++ [⟨(item.TITLE).getD "",
       "https://static.sse.com.cn" ++ (item.URL).getD ""⟩], item.TITLE)
  else (st.1, item.TITLE)

/-- The two nested `for` loops over a page's list-of-lists (lines 96–102),
threading the announcement accumulator and the shadowed `title` variable. -/
def processPage (d : List (List Item)) (acc : List Announcement)
    (tv : Option String) : List Announcement × Option String :=
  d.foldl (fun st inner => inner.foldl processItem st) (acc, tv)

/-- The records one page contributes (`announcements_on_page`). -/
def page_records (d : List (List Item)) : List Announcement :=
  (processPage d [] none).1

/-- The query-parameter dict built on lines 66–76 for page `p`, with the
current value of the (shadowed) `title` variable. -/
structure Request where
  isPagination : String
  pageSize : Nat
  cacheSize : Nat
  START_DATE : String
  END_DATE : String
  SECURITY_CODE : String
  beginPage : Nat
  pageNo : Nat
  TITLE : Option String
deriving DecidableEq

def mkRequest (security_code start_date end_date : String) (p : Nat)
    (tv : Option String) : Request :=
  ⟨"true", 100, 1, start_date, end_date, security_code, p, p, tv⟩

/-- Outcome of one `session.get` + `raise_for_status` + `response.json()`
round: `ok data` (with the extracted `pageHelp.data` payload), a
`json.JSONDecodeError`, or a `requests.exceptions.RequestException`
(which also covers non-2xx statuses raised by `raise_for_status`). -/
inductive PageResp where
  | ok (data : List (List Item))
  | parseError
  | netError
deriving DecidableEq

inductive FetchEvent where
  | request (r : Request)
  | sleepMs (ms : Nat)
deriving DecidableEq

/-- The `while True` paging loop (lines 61–111), one response consumed per
iteration: `ok []` hits the `break`; `ok data` extends the accumulator,
advances the page and sleeps 0.5 s; `parseError` skips to the next page
number; `netError` sleeps 2 s and retries the same page number. -/
def fetch_loop (security_code start_date end_date : String) :
    List PageResp → Nat → Option String → List Announcement →
      List FetchEvent × List Announcement
  | [], _, _, acc => ([], acc)
  | PageResp.netError :: rest, page_num, tv, acc =>
    (FetchEvent.request (mkRequest security_code start_date end_date page_num tv) ::
       FetchEvent.sleepMs 2000 ::
       (fetch_loop security_code start_date end_date rest page_num tv acc).1,
     (fetch_loop security_code start_date end_date rest page_num tv acc).2)
  | PageResp.parseError :: rest, page_num, tv, acc =>
    (FetchEvent.request (mkRequest security_code start_date end_date page_num tv) ::
       (fetch_loop security_code start_date end_date rest (page_num + 1) tv acc).1,
     (fetch_loop security_code start_date end_date rest (page_num + 1) tv acc).2)
  | PageResp.ok d :: rest, page_num, tv, acc =>
    if d.isEmpty then
      ([FetchEvent.request (mkRequest security_code start_date end_date page_num tv)],
        acc)
    else
      (FetchEvent.request (mkRequest security_code start_date end_date page_num tv) ::
         FetchEvent.sleepMs 500 ::
         (fetch_loop security_code start_date end_date rest (page_num + 1)
           (processPage d [] tv).2 (acc ++ (processPage d [] tv).1)).1,
       (fetch_loop security_code start_date end_date rest (page_num + 1)
         (processPage d [] tv).2 (acc ++ (processPage d [] tv).1)).2)

/-- `fetch_all_announcements_paginated(session, security_code, start_date,
end_date, title)`: start on page 1 with `title` = the filter argument and an
empty accumulator.  The `responses` list stands for the remote session. -/
def fetch_all_announcements_paginated (responses : List PageResp)
    (security_code start_date end_date title : String) :
    List FetchEvent × List Announcement :=
  fetch_loop security_code start_date end_date responses 1 (some title) []

/-- The GET requests contained in a fetch trace, in order. -/
def requestsOf (evs : List FetchEvent) : List Request :=
  evs.filterMap (fun ev => match ev with
    | FetchEvent.request r => some r
    | _ => none)

/-- Specification-side item rule: an item yields an announcement exactly when
both fields are present and non-empty, with the static host prefixed. -/
def itemAnn (it : Item) : Option Announcement :=
  match it.TITLE, it.URL with
  | some t, some u =>
    if t ≠ "" ∧ u ≠ "" then some ⟨t, "https://static.sse.com.cn" ++ u⟩ else none
  | _, _ => none

theorem processItem_eq (st : List Announcement × Option String) (it : Item) :
    processItem st it = (st.1 ++ (itemAnn it).toList, it.TITLE) := by
  obtain ⟨T, U⟩ := it
  cases T with
  | none => simp [processItem, itemAnn, truthy]
  | some t =>
    cases U with
    | none => simp [processItem, itemAnn, truthy]
    | some u =>
      by_cases ht : t = ""
      · subst ht
        simp [processItem, itemAnn, truthy]
      · by_cases hu : u = ""
        · subst hu
          simp [processItem, itemAnn, truthy, ht]
        · simp [processItem, itemAnn, truthy, ht, hu]

theorem processInner_fst (inner : List Item) :
    ∀ (a : List Announcement) (t : Option String),
      (inner.foldl processItem (a, t)).1 = a ++ inner.filterMap itemAnn := by
  induction inner with
  | nil => intro a t; simp
  | cons it rest ih =>
    intro a t
    rw [List.foldl_cons, processItem_eq, ih]
    cases h : itemAnn it <;> simp [h, List.filterMap_cons]

theorem processPage_fst (d : List (List Item)) :
    ∀ (acc : List Announcement) (tv : Option String),
      (processPage d acc tv).1 = acc ++ (d.flatten).filterMap itemAnn := by
  induction d with
  | nil => intro acc tv; simp [processPage]
  | cons inner rest ih =>
    intro acc tv
    have key : processPage (inner :: rest) acc tv
        = processPage rest ((inner.foldl processItem (acc, tv)).1)
            ((inner.foldl processItem (acc, tv)).2) := rfl
    rw [key, ih, processInner_fst]
    simp [List.filterMap_append]

theorem page_records_eq (d : List (List Item)) :
    page_records d = (d.flatten).filterMap itemAnn := by
  unfold page_records
  rw [processPage_fst]
  simp

/-- The records a single response contributes to the final result. -/
def pageRecordsOf : PageResp → List Announcement
  | PageResp.ok d => page_records d
  | _ => []

theorem requestsOf_cons_request (r : Request) (evs : List FetchEvent) :
    requestsOf (FetchEvent.request r :: evs) = r :: requestsOf evs := rfl

theorem requestsOf_cons_sleep (ms : Nat) (evs : List FetchEvent) :
    requestsOf (FetchEvent.sleepMs ms :: evs) = requestsOf evs := rfl

theorem fetch_loop_split (security_code start_date end_date : String) :
    ∀ (pre : List PageResp), (∀ r ∈ pre, r ≠ PageResp.ok []) →
      ∀ (post : List PageResp) (p : Nat) (tv : Option String)
        (acc : List Announcement),
        (fetch_loop security_code start_date end_date
            (pre ++ PageResp.ok [] :: post) p tv acc).2
          = acc ++ (pre.map pageRecordsOf).flatten ∧
        (requestsOf (fetch_loop security_code start_date end_date
            (pre ++ PageResp.ok [] :: post) p tv acc).1).length
          = pre.length + 1 := by
  intro pre
  induction pre with
  | nil =>
    intro hpre post p tv acc
    simp [fetch_loop, requestsOf]
  | cons r rest ih =>
    intro hpre post p tv acc
    have hr : r ≠ PageResp.ok [] := hpre r (List.mem_cons_self _ _)
    have hrest : ∀ x ∈ rest, x ≠ PageResp.ok [] :=
      fun x hx => hpre x (List.mem_cons_of_mem _ hx)
    cases r with
    | netError =>
      have h := ih hrest post p tv acc
      constructor
      · show (fetch_loop security_code start_date end_date
            (rest ++ PageResp.ok [] :: post) p tv acc).2
          = acc ++ (List.map pageRecordsOf (PageResp.netError :: rest)).flatten
        rw [h.1]
        simp [pageRecordsOf]
      · show (requestsOf (FetchEvent.request
            (mkRequest security_code start_date end_date p tv) ::
            FetchEvent.sleepMs 2000 ::
            (fetch_loop security_code start_date end_date
              (rest ++ PageResp.ok [] :: post) p tv acc).1)).length
          = (PageResp.netError :: rest).length + 1
        rw [requestsOf_cons_request, requestsOf_cons_sleep]
        simp [h.2]
    | parseError =>
      have h := ih hrest post (p + 1) tv acc
      constructor
      · show (fetch_loop security_code start_date end_date
            (rest ++ PageResp.ok [] :: post) (p + 1) tv acc).2
          = acc ++ (List.map pageRecordsOf (PageResp.parseError :: rest)).flatten
        rw [h.1]
        simp [pageRecordsOf]
      · show (requestsOf (FetchEvent.request
            (mkRequest security_code start_date end_date p tv) ::
            (fetch_loop security_code start_date end_date
              (rest ++ PageResp.ok [] :: post) (p + 1) tv acc).1)).length
          = (PageResp.parseError :: rest).length + 1
        rw [requestsOf_cons_request]
        simp [h.2]
    | ok d =>
      have hd : d ≠ [] := fun hnil => hr (by rw [hnil])
      have hne : ¬ d.isEmpty = true := by
        cases d with
        | nil => exact absurd rfl hd
        | cons x xs => simp
      have h := ih hrest post (p + 1) (processPage d [] tv).2
        (acc ++ (processPage d [] tv).1)
      have hrec : (processPage d [] tv).1 = page_records d := by
        rw [processPage_fst, page_records_eq]
        simp
      rw [List.cons_append]
      constructor
      · simp only [fetch_loop]
        rw [if_neg hne]
        show (fetch_loop security_code start_date end_date
            (rest ++ PageResp.ok [] :: post) (p + 1) (processPage d [] tv).2
            (acc ++ (processPage d [] tv).1)).2
          = acc ++ (List.map pageRecordsOf (PageResp.ok d :: rest)).flatten
        rw [h.1, hrec]
        simp [pageRecordsOf]
      · simp only [fetch_loop]
        rw [if_neg hne]
        show (requestsOf (FetchEvent.request
            (mkRequest security_code start_date end_date p tv) ::
            FetchEvent.sleepMs 500 ::
            (fetch_loop security_code start_date end_date
              (rest ++ PageResp.ok [] :: post) (p + 1) (processPage d [] tv).2
              (acc ++ (processPage d [] tv).1)).1)).length
          = (PageResp.ok d :: rest).length + 1
        rw [requestsOf_cons_request, requestsOf_cons_sleep]
        simp [h.2]

/-- C1: for every sequence of API responses, the paging loop stops at the
first response whose `pageHelp.data` payload is empty (issuing exactly one
request per prior response plus the final one — nothing after the empty page
is requested), and returns exactly the concatenation, in page order, of the
records extracted from the pages fetched before that empty page. -/
theorem claim_C1 (pre post : List PageResp)
    (security_code start_date end_date title : String)
    (hpre : ∀ r ∈ pre, r ≠ PageResp.ok []) :
    (fetch_all_announcements_paginated (pre ++ PageResp.ok [] :: post)
        security_code start_date end_date title).2
      = (pre.map pageRecordsOf).flatten ∧
    (requestsOf (fetch_all_announcements_paginated (pre ++ PageResp.ok [] :: post)
        security_code start_date end_date title).1).length = pre.length + 1 := by
  have h := fetch_loop_split security_code start_date end_date pre hpre post 1
    (some title) []
  exact ⟨by simpa [fetch_all_announcements_paginated] using h.1,
    by simpa [fetch_all_announcements_paginated] using h.2⟩

/-- Witness for C1: one non-empty page (a single valid item) followed by the
empty page; the fetch returns that page's single record and issues exactly
two requests. -/
theorem claim_C1_witness :
    (∀ r ∈ [PageResp.ok [[(⟨some "A", some "/a.pdf"⟩ : Item)]]],
      r ≠ PageResp.ok []) ∧
    ((fetch_all_announcements_paginated
        ([PageResp.ok [[(⟨some "A", some "/a.pdf"⟩ : Item)]]] ++
          PageResp.ok [] :: [])
        "600036" "2022-01-01" "2022-12-31" "").2
      = ([PageResp.ok [[(⟨some "A", some "/a.pdf"⟩ : Item)]]].map
          pageRecordsOf).flatten ∧
     (requestsOf (fetch_all_announcements_paginated
        ([PageResp.ok [[(⟨some "A", some "/a.pdf"⟩ : Item)]]] ++
          PageResp.ok [] :: [])
        "600036" "2022-01-01" "2022-12-31" "").1).length
      = [PageResp.ok [[(⟨some "A", some "/a.pdf"⟩ : Item)]]].length + 1) :=
  ⟨by decide,
    claim_C1 [PageResp.ok [[⟨some "A", some "/a.pdf"⟩]]] []
      "600036" "2022-01-01" "2022-12-31" "" (by decide)⟩

/-- C4 (code bug): the claim says every page request carries the query
parameter TITLE equal to the title filter `t`.  Page 1 does, but line 98 of
`ann.py` (`title = item.get("TITLE")` inside the item loop) rebinds the
function-level `title` parameter, so every later page's request carries the
TITLE of the *last item of the previous page* instead of the filter.  With
filter "Report" and page 1 returning the single item
TITLE = "X", URL = "/x.pdf", the page-2 request has TITLE = "X" ≠ "Report"
(the fixed pagination parameters and beginPage = pageNo = page number do
hold on both requests, as the evaluated request list shows). -/
theorem claim_C4_bug :
    requestsOf (fetch_all_announcements_paginated
        [PageResp.ok [[(⟨some "X", some "/x.pdf"⟩ : Item)]], PageResp.ok []]
        "600036" "2022-01-01" "2022-12-31" "Report").1
      = [mkRequest "600036" "2022-01-01" "2022-12-31" 1 (some "Report"),
         mkRequest "600036" "2022-01-01" "2022-12-31" 2 (some "X")] ∧
    (mkRequest "600036" "2022-01-01" "2022-12-31" 2 (some "X")).TITLE
      ≠ some "Report" := by
  constructor
  · decide
  · decide

/-- C5: an item of a page yields an announcement if and only if both its
TITLE and URL fields are present and non-empty (the `itemAnn` rule), an
excluded item does not stop processing of the remaining items (the page's
records are the filterMap over the whole flattened page), every yielded url
is the item's URL path prefixed with the fixed static host; and the spec's
example page yields exactly the single "Q1 Report" announcement. -/
theorem claim_C5 :
    (∀ (d : List (List Item)) (tv : Option String),
      (processPage d [] tv).1 = (d.flatten).filterMap itemAnn) ∧
    page_records [[⟨some "Q1 Report", some "/a.pdf"⟩],
        [⟨some "", some "/b.pdf"⟩]]
      = [⟨"Q1 Report", "https://static.sse.com.cn/a.pdf"⟩] := by
  constructor
  · intro d tv
    rw [processPage_fst]
    simp
  · decide

/-- C6: a JSON-parse failure on a page issues that page's request, then
continues at the next page number with the accumulator unchanged (the page's
records are lost but the fetch continues); a network-level request failure
issues the request, pauses a fixed 2 s and retries the *same* page number —
for every number `k` of consecutive network failures the loop issues `k`
identical request/sleep pairs and then carries on unchanged, i.e. there is
no retry limit; neither failure aborts the fetch. -/
theorem claim_C6 (security_code start_date end_date : String) :
    (∀ (rest : List PageResp) (p : Nat) (tv : Option String)
      (acc : List Announcement),
      fetch_loop security_code start_date end_date
          (PageResp.parseError :: rest) p tv acc
        = (FetchEvent.request (mkRequest security_code start_date end_date p tv) ::
            (fetch_loop security_code start_date end_date rest (p + 1) tv acc).1,
           (fetch_loop security_code start_date end_date rest (p + 1) tv acc).2)) ∧
    (∀ (k : Nat) (rest : List PageResp) (p : Nat) (tv : Option String)
      (acc : List Announcement),
      fetch_loop security_code start_date end_date
          (List.replicate k PageResp.netError ++ rest) p tv acc
        = ((List.replicate k
              [FetchEvent.request (mkRequest security_code start_date end_date p tv),
               FetchEvent.sleepMs 2000]).flatten ++
            (fetch_loop security_code start_date end_date rest p tv acc).1,
           (fetch_loop security_code start_date end_date rest p tv acc).2)) := by
  constructor
  · intro rest p tv acc
    rfl
  · intro k
    induction k with
    | zero => intro rest p tv acc; simp
    | succ n ih =>
      intro rest p tv acc
      rw [List.replicate_succ, List.cons_append]
      show (FetchEvent.request (mkRequest security_code start_date end_date p tv) ::
          FetchEvent.sleepMs 2000 ::
          (fetch_loop security_code start_date end_date
            (List.replicate n PageResp.netError ++ rest) p tv acc).1,
         (fetch_loop security_code start_date end_date
            (List.replicate n PageResp.netError ++ rest) p tv acc).2) = _
      rw [ih]
      simp [List.replicate_succ]

/-! ## `clean_filename` (lines 25–29) and the `os.path` helpers -/

/-- The character class of `re.sub(r'[\\/*?:"<>|]', "", filename)`. -/
def illegalChar (c : Char) : Bool :=
  c = '\\' || c = '/' || c = '*' || c = '?' || c = ':' || c = '"' ||
    c = '<' || c = '>' || c = '|'

/-- `re.sub(pattern, "", s)` for a single-character class: scan the string,
dropping every matching character and keeping the rest in order. -/
def re_sub_remove (p : Char → Bool) : List Char → List Char
  | [] => []
  | c :: cs => if p c then re_sub_remove p cs else c :: re_sub_remove p cs

/-- `clean_filename(filename)`: remove the illegal filename characters. -/
def clean_filename (filename : String) : String :=
  String.mk (re_sub_remove illegalChar filename.data)

/-- `os.path.basename` on a POSIX path: the part after the last "/". -/
def os_basename (p : String) : String :=
  String.mk ((splitOnChar '/' p.data).getLastD [])

def startsWithSlash (s : String) : Bool :=
  match s.data with
  | [] => false
  | c :: _ => c = '/'

def endsWithSlash (s : String) : Bool :=
  match s.data.getLast? with
  | some c => c = '/'
  | none => false

/-- `os.path.join(a, b)` on POSIX: `b` if absolute, else concatenate with a
separator unless `a` is empty or already ends in one. -/
def os_path_join (a b : String) : String :=
  if startsWithSlash b then b
  else if a == "" || endsWithSlash a then a ++ b
  else a ++ "/" ++ b

/-- `os.path.abspath` relative to a current working directory (path
normalisation beyond prefixing the cwd is not modelled; no claim depends
on it). -/
def os_path_abspath (cwd p : String) : String :=
  if startsWithSlash p then p else os_path_join cwd p

/-! ## `download_pdf_hybrid` (lines 115–152)

The body's interaction with the outside world is an environment recording
the outcome of each stage: browser navigation (`driver.get`), the harvested
cookie set, the streamed GET (`session.get` + `raise_for_status`), and
writing the chunks to disk.  `Except.error msg` models an exception carrying
message `msg` raised at that stage. -/

instance : DecidableEq (Except String Unit) := fun a b =>
  match a, b with
  | Except.ok x, Except.ok y => isTrue (by cases x; cases y; rfl)
  | Except.error e1, Except.error e2 =>
    if h : e1 = e2 then isTrue (by rw [h])
    else isFalse (fun hc => h (Except.error.inj hc))
  | Except.ok _, Except.error _ => isFalse (fun hc => Except.noConfusion hc)
  | Except.error _, Except.ok _ => isFalse (fun hc => Except.noConfusion hc)

structure DlEnv where
  nav : Except String Unit
  cookies : List (String × String)
  http : Except String Unit
  save : Except String Unit
deriving DecidableEq

/-- The `try` body of `download_pdf_hybrid` (lines 119–149): navigate, check
the cookie set (raising the fixed message when empty), issue the streamed
GET, write the file. -/
def download_body (env : DlEnv) : Except String Unit :=
  match env.nav with
  | Except.error e => Except.error e
  | Except.ok _ =>
    if env.cookies.isEmpty then
      Except.error "无法从浏览器获取Cookie，下载可能被拦截。"
    else
      match env.http with
      | Except.error e => Except.error e
      | Except.ok _ => env.save

/-- `download_pdf_hybrid(driver, url, filepath)`: the body's exception, if
any, is caught by the blanket `except Exception` and turned into the failure
string; otherwise the success string is returned.  Nothing propagates. -/
def download_pdf_hybrid (env : DlEnv) (url filepath : String) : String :=
  match download_body env with
  | Except.ok _ => "成功下载: " ++ os_basename filepath
  | Except.error e => "下载失败: " ++ os_basename filepath ++ ", 原因: " ++ e

/-- Every failure message the environment can inject is non-empty (true of
the exceptions `requests`, `selenium` and the OS raise at these stages). -/
def errNonEmpty : Except String Unit → Bool
  | Except.error e => !(e == "")
  | Except.ok _ => true

def DlEnv.msgsNonEmpty (env : DlEnv) : Bool :=
  errNonEmpty env.nav && errNonEmpty env.http && errNonEmpty env.save

/-! ## `batch_download_sequential` (lines 154–171) -/

inductive BatchEvent where
  | print (s : String)
  | makedirs (dir : String)
  | download (url : String) (filepath : String) (result : String)
deriving DecidableEq

/-- The `for i, ann in enumerate(announcements)` loop (lines 166–171). -/
def batch_loop (envf : Nat → DlEnv) (target_dir : String) (total : Nat) :
    Nat → List Announcement → List BatchEvent
  | _, [] => []
  | i, ann :: rest =>
    BatchEvent.print ("[" ++ Nat.repr (i + 1) ++ "/" ++ Nat.repr total ++
      "] 正在处理: " ++ ann.title) ::
    BatchEvent.download ann.url
      (os_path_join target_dir (clean_filename ann.title ++ ".pdf"))
      (download_pdf_hybrid (envf i) ann.url
        (os_path_join target_dir (clean_filename ann.title ++ ".pdf"))) ::
    BatchEvent.print (download_pdf_hybrid (envf i) ann.url
      (os_path_join target_dir (clean_filename ann.title ++ ".pdf"))) ::
    batch_loop envf target_dir total (i + 1) rest

/-- `batch_download_sequential(driver, announcements, target_dir)`; `envf i`
is the download environment the shared browser presents for the `i`-th file,
`cwd` the process working directory (used only by the `abspath` print). -/
def batch_download_sequential (envf : Nat → DlEnv)
    (announcements : List Announcement) (target_dir cwd : String) :
    List BatchEvent :=
  if announcements.isEmpty then [BatchEvent.print "没有可下载的公告。"]
  else
    BatchEvent.makedirs target_dir ::
    BatchEvent.print ("文件将被保存到: " ++ os_path_abspath cwd target_dir) ::
    batch_loop envf target_dir announcements.length 0 announcements

/-- The download attempts of a batch trace: (url, filepath, result). -/
def downloadsOf (evs : List BatchEvent) : List (String × String × String) :=
  evs.filterMap (fun ev => match ev with
    | BatchEvent.download u fp res => some (u, fp, res)
    | _ => none)

theorem downloadsOf_cons_print (s : String) (evs : List BatchEvent) :
    downloadsOf (BatchEvent.print s :: evs) = downloadsOf evs := rfl

theorem downloadsOf_cons_makedirs (d : String) (evs : List BatchEvent) :
    downloadsOf (BatchEvent.makedirs d :: evs) = downloadsOf evs := rfl

theorem downloadsOf_cons_download (u fp res : String) (evs : List BatchEvent) :
    downloadsOf (BatchEvent.download u fp res :: evs)
      = (u, fp, res) :: downloadsOf evs := rfl

theorem batch_loop_downloads (envf : Nat → DlEnv) (target_dir : String)
    (total : Nat) :
    ∀ (anns : List Announcement) (i : Nat),
      downloadsOf (batch_loop envf target_dir total i anns)
        = (anns.enumFrom i).map (fun pr =>
            (pr.2.url,
             os_path_join target_dir (clean_filename pr.2.title ++ ".pdf"),
             download_pdf_hybrid (envf pr.1) pr.2.url
               (os_path_join target_dir (clean_filename pr.2.title ++ ".pdf")))) := by
  intro anns
  induction anns with
  | nil => intro i; rfl
  | cons a rest ih =>
    intro i
    simp only [batch_loop]
    rw [downloadsOf_cons_print, downloadsOf_cons_download, downloadsOf_cons_print,
      ih]
    rfl

theorem enumFrom_map_snd_comp {α β : Type} (f : α → β) :
    ∀ (l : List α) (n : Nat),
      (l.enumFrom n).map (fun p => f p.2) = l.map f := by
  intro l
  induction l with
  | nil => intro n; rfl
  | cons a rest ih =>
    intro n
    simp only [List.enumFrom, List.map_cons]
    rw [ih]

theorem re_sub_remove_eq_filter (p : Char → Bool) :
    ∀ l : List Char, re_sub_remove p l = l.filter (fun c => !(p c)) := by
  intro l
  induction l with
  | nil => rfl
  | cons c cs ih =>
    by_cases h : p c = true
    · simp [re_sub_remove, h, ih]
    · simp only [Bool.not_eq_true] at h
      simp [re_sub_remove, h, ih]

theorem download_body_error_msg (env : DlEnv) (e : String)
    (hb : download_body env = Except.error e)
    (hmsg : DlEnv.msgsNonEmpty env = true) : e ≠ "" := by
  unfold download_body at hb
  simp only [DlEnv.msgsNonEmpty, Bool.and_eq_true] at hmsg
  obtain ⟨⟨h1, h2⟩, h3⟩ := hmsg
  cases hnav : env.nav with
  | error e2 =>
    rw [hnav] at hb h1
    simp only [errNonEmpty, Bool.not_eq_eq_eq_not, Bool.not_true, beq_eq_false_iff_ne,
      ne_eq] at h1
    simp only at hb
    have he : e = e2 := (Except.error.inj hb).symm
    subst he
    exact h1
  | ok u =>
    rw [hnav] at hb
    simp only at hb
    by_cases hc : env.cookies.isEmpty = true
    · rw [if_pos hc] at hb
      have he : e = "无法从浏览器获取Cookie，下载可能被拦截。" :=
        (Except.error.inj hb).symm
      subst he
      decide
    · rw [if_neg hc] at hb
      cases hh : env.http with
      | error e2 =>
        rw [hh] at hb h2
        simp only [errNonEmpty, Bool.not_eq_eq_eq_not, Bool.not_true,
          beq_eq_false_iff_ne, ne_eq] at h2
        simp only at hb
        have he : e = e2 := (Except.error.inj hb).symm
        subst he
        exact h2
      | ok v =>
        rw [hh] at hb
        simp only at hb
        rw [hb] at h3
        simp only [errNonEmpty, Bool.not_eq_eq_eq_not, Bool.not_true,
          beq_eq_false_iff_ne, ne_eq] at h3
        exact h3

/-- C7: `download_pdf_hybrid` never lets an exception escape: for every
environment it returns either the success string or a failure string that
carries the destination's base filename and the failure reason (non-empty
whenever the injected exception messages are, and the fixed no-cookie
message always is); consequently the sequential batch performs exactly one
download attempt per announcement, in list order, whatever the individual
outcomes are. -/
theorem claim_C7 (env : DlEnv) (url filepath : String)
    (hmsg : DlEnv.msgsNonEmpty env = true) :
    (download_pdf_hybrid env url filepath = "成功下载: " ++ os_basename filepath
     ∨ ∃ e : String, e ≠ "" ∧ download_body env = Except.error e ∧
        download_pdf_hybrid env url filepath
          = "下载失败: " ++ os_basename filepath ++ ", 原因: " ++ e) ∧
    (∀ (envf : Nat → DlEnv) (anns : List Announcement) (target_dir cwd : String),
      downloadsOf (batch_download_sequential envf anns target_dir cwd)
        = (anns.enumFrom 0).map (fun pr =>
            (pr.2.url,
             os_path_join target_dir (clean_filename pr.2.title ++ ".pdf"),
             download_pdf_hybrid (envf pr.1) pr.2.url
               (os_path_join target_dir (clean_filename pr.2.title ++ ".pdf"))))) := by
  constructor
  · cases hb : download_body env with
    | ok u =>
      left
      simp [download_pdf_hybrid, hb]
    | error e =>
      right
      exact ⟨e, download_body_error_msg env e hb hmsg, rfl,
        by simp [download_pdf_hybrid, hb]⟩
  · intro envf anns target_dir cwd
    cases anns with
    | nil => rfl
    | cons a rest =>
      unfold batch_download_sequential
      rw [if_neg (by simp)]
      rw [downloadsOf_cons_makedirs, downloadsOf_cons_print, batch_loop_downloads]

/-- Witness for C7: navigation and cookies succeed but the GET fails with a
non-2xx status message; the result is the failure string for `f.pdf`, and the
batch equation holds. -/
theorem claim_C7_witness :
    DlEnv.msgsNonEmpty
        ⟨Except.ok (), [("ck", "v")], Except.error "404 Client Error",
          Except.ok ()⟩ = true ∧
    ((download_pdf_hybrid
        ⟨Except.ok (), [("ck", "v")], Except.error "404 Client Error",
          Except.ok ()⟩ "u" "dir/f.pdf"
        = "成功下载: " ++ os_basename "dir/f.pdf"
      ∨ ∃ e : String, e ≠ "" ∧
          download_body ⟨Except.ok (), [("ck", "v")],
            Except.error "404 Client Error", Except.ok ()⟩ = Except.error e ∧
          download_pdf_hybrid ⟨Except.ok (), [("ck", "v")],
            Except.error "404 Client Error", Except.ok ()⟩ "u" "dir/f.pdf"
            = "下载失败: " ++ os_basename "dir/f.pdf" ++ ", 原因: " ++ e) ∧
     (∀ (envf : Nat → DlEnv) (anns : List Announcement) (target_dir cwd : String),
       downloadsOf (batch_download_sequential envf anns target_dir cwd)
         = (anns.enumFrom 0).map (fun pr =>
             (pr.2.url,
              os_path_join target_dir (clean_filename pr.2.title ++ ".pdf"),
              download_pdf_hybrid (envf pr.1) pr.2.url
                (os_path_join target_dir
                  (clean_filename pr.2.title ++ ".pdf")))))) :=
  ⟨by decide,
    claim_C7 ⟨Except.ok (), [("ck", "v")], Except.error "404 Client Error",
      Except.ok ()⟩ "u" "dir/f.pdf" (by decide)⟩

/-- C9: every announcement's destination path is exactly `target_dir` joined
with `clean_filename(title) ++ ".pdf"`; `clean_filename` keeps exactly the
characters outside the class \ / * ? : " < > | in their original order, so
the produced filename component contains none of those characters. -/
theorem claim_C9 (envf : Nat → DlEnv) (anns : List Announcement)
    (target_dir cwd : String) :
    (downloadsOf (batch_download_sequential envf anns target_dir cwd)).map
        (fun t => t.2.1)
      = anns.map (fun a =>
          os_path_join target_dir (clean_filename a.title ++ ".pdf")) ∧
    (∀ t : String, (clean_filename t).data
        = t.data.filter (fun c => !(illegalChar c))) ∧
    (∀ (t : String) (c : Char), c ∈ (clean_filename t).data →
      illegalChar c = false) := by
  refine ⟨?_, ?_, ?_⟩
  · cases anns with
    | nil => rfl
    | cons a rest =>
      unfold batch_download_sequential
      rw [if_neg (by simp)]
      rw [downloadsOf_cons_makedirs, downloadsOf_cons_print, batch_loop_downloads,
        List.map_map]
      show (List.enumFrom 0 (a :: rest)).map
          (fun p => os_path_join target_dir (clean_filename p.2.title ++ ".pdf"))
        = (a :: rest).map
          (fun x => os_path_join target_dir (clean_filename x.title ++ ".pdf"))
      exact enumFrom_map_snd_comp
        (fun x => os_path_join target_dir (clean_filename x.title ++ ".pdf"))
        (a :: rest) 0
  · intro t
    exact re_sub_remove_eq_filter illegalChar t.data
  · intro t c hc
    rw [show (clean_filename t).data = re_sub_remove illegalChar t.data from rfl,
      re_sub_remove_eq_filter] at hc
    have := List.of_mem_filter hc
    simpa using this

/-- C10: on an empty announcement list the batch prints the notice and
returns at once — its trace contains no `makedirs`, no download attempt, and
no other filesystem-touching event. -/
theorem claim_C10 (envf : Nat → DlEnv) (target_dir cwd : String) :
    batch_download_sequential envf [] target_dir cwd
      = [BatchEvent.print "没有可下载的公告。"] ∧
    (∀ d : String,
      BatchEvent.makedirs d ∉ batch_download_sequential envf [] target_dir cwd) ∧
    (∀ u fp res : String,
      BatchEvent.download u fp res ∉
        batch_download_sequential envf [] target_dir cwd) := by
  refine ⟨rfl, ?_, ?_⟩
  · intro d
    show BatchEvent.makedirs d ∉ [BatchEvent.print "没有可下载的公告。"]
    simp
  · intro u fp res
    show BatchEvent.download u fp res ∉ [BatchEvent.print "没有可下载的公告。"]
    simp

/-! ## The `__main__` orchestration (lines 173–259)

The environment carries everything the outside world supplies to one run:
the cookies the browser reports after the bootstrap navigation, the page
content it rendered (never inspected by the code), the API responses for
each date sub-range, the per-file download environments, and the
configuration from the argument parser. -/

structure MainEnv where
  initialCookies : List (String × String)
  pageContent : String
  responses : String → String → List PageResp
  dlenv : Nat → DlEnv
  SECURITY_CODE : String
  START_DATE : String
  END_DATE : String
  TITLE : String
  target_dir : String
  cwd : String

inductive MainEvent where
  | navigate (url : String)
  | fetchEvent (e : FetchEvent)
  | batchEvent (e : BatchEvent)
  | fatalError (msg : String)
  | quitBrowser
deriving DecidableEq

/-- The `try`/`except`/`finally` of `__main__` (lines 213–259): navigate to
the announcement page, check the harvested cookies (the raise on line 222 is
caught by the top-level handler, which prints the fatal message), otherwise
split the dates, fetch every range, and batch-download when anything was
collected; the browser is quit in the `finally` block either way. -/
def main_run (env : MainEnv) : List MainEvent :=
  MainEvent.navigate "https://www.sse.com.cn/disclosure/listedinfo/announcement/" ::
  ((if env.initialCookies.isEmpty then
      [MainEvent.fatalError "程序执行过程中发生严重错误: 无法从浏览器获取到任何初始Cookie。"]
    else
      match generate_yearly_date_ranges env.START_DATE env.END_DATE with
      | none =>
        [MainEvent.fatalError "程序执行过程中发生严重错误: 日期格式不符合 %Y-%m-%d"]
      | some date_ranges =>
        ((date_ranges.map (fun se =>
            (fetch_all_announcements_paginated (env.responses se.1 se.2)
              env.SECURITY_CODE se.1 se.2 env.TITLE).1)).flatten).map
          MainEvent.fetchEvent ++
        (if ((date_ranges.map (fun se =>
              (fetch_all_announcements_paginated (env.responses se.1 se.2)
                env.SECURITY_CODE se.1 se.2 env.TITLE).2)).flatten).isEmpty then
          []
        else
          (batch_download_sequential env.dlenv
            ((date_ranges.map (fun se =>
              (fetch_all_announcements_paginated (env.responses se.1 se.2)
                env.SECURITY_CODE se.1 se.2 env.TITLE).2)).flatten)
            env.target_dir env.cwd).map MainEvent.batchEvent)) ++
    [MainEvent.quitBrowser])

/-- C8: if the browser context reports zero cookies after the bootstrap
navigation, the run fails with the no-cookies error regardless of the page
content (or anything else in the environment), the browser is closed, and no
fetch request and no download is ever attempted. -/
theorem claim_C8 (env : MainEnv) (h : env.initialCookies = []) :
    main_run env
      = [MainEvent.navigate
           "https://www.sse.com.cn/disclosure/listedinfo/announcement/",
         MainEvent.fatalError
           "程序执行过程中发生严重错误: 无法从浏览器获取到任何初始Cookie。",
         MainEvent.quitBrowser] ∧
    (∀ e : FetchEvent, MainEvent.fetchEvent e ∉ main_run env) ∧
    (∀ e : BatchEvent, MainEvent.batchEvent e ∉ main_run env) := by
  have hempty : env.initialCookies.isEmpty = true := by rw [h]; rfl
  have heq : main_run env
      = [MainEvent.navigate
           "https://www.sse.com.cn/disclosure/listedinfo/announcement/",
         MainEvent.fatalError
           "程序执行过程中发生严重错误: 无法从浏览器获取到任何初始Cookie。",
         MainEvent.quitBrowser] := by
    unfold main_run
    rw [if_pos hempty]
    rfl
  refine ⟨heq, ?_, ?_⟩
  · intro e
    rw [heq]
    simp
  · intro e
    rw [heq]
    simp

/-- Witness for C8: a concrete environment whose browser reports zero
cookies. -/
theorem claim_C8_witness :
    (MainEnv.mk [] "rendered page content" (fun _ _ => [])
        (fun _ => ⟨Except.ok (), [], Except.ok (), Except.ok ()⟩)
        "600036" "2024-01-01" "2024-12-31" "" "downloads/run1"
        "/home/user").initialCookies = [] ∧
    (main_run (MainEnv.mk [] "rendered page content" (fun _ _ => [])
        (fun _ => ⟨Except.ok (), [], Except.ok (), Except.ok ()⟩)
        "600036" "2024-01-01" "2024-12-31" "" "downloads/run1" "/home/user")
      = [MainEvent.navigate
           "https://www.sse.com.cn/disclosure/listedinfo/announcement/",
         MainEvent.fatalError
           "程序执行过程中发生严重错误: 无法从浏览器获取到任何初始Cookie。",
         MainEvent.quitBrowser] ∧
     (∀ e : FetchEvent, MainEvent.fetchEvent e ∉
        main_run (MainEnv.mk [] "rendered page content" (fun _ _ => [])
          (fun _ => ⟨Except.ok (), [], Except.ok (), Except.ok ()⟩)
          "600036" "2024-01-01" "2024-12-31" "" "downloads/run1" "/home/user")) ∧
     (∀ e : BatchEvent, MainEvent.batchEvent e ∉
        main_run (MainEnv.mk [] "rendered page content" (fun _ _ => [])
          (fun _ => ⟨Except.ok (), [], Except.ok (), Except.ok ()⟩)
          "600036" "2024-01-01" "2024-12-31" "" "downloads/run1" "/home/user"))) :=
  ⟨rfl,
    claim_C8 (MainEnv.mk [] "rendered page content" (fun _ _ => [])
      (fun _ => ⟨Except.ok (), [], Except.ok (), Except.ok ()⟩)
      "600036" "2024-01-01" "2024-12-31" "" "downloads/run1" "/home/user") rfl⟩
